import Mathlib

/-! I2C bus-master sequencer (`src/lib/i2c.c`)

A shallow embedding of the polled I2C master library for the PIC MSSP
peripheral, compiled with XC8 (`#include <xc.h>`).

* The special function registers the code touches (`SSPCON`, `SSPCON2`,
  `SSPADD`, `SSPSTAT`, `SSPBUF`, `TRISC3`, `TRISC4`) are fields of `Periph`.
* Data memory maps addresses to bytes and a pointer is an address. Address 0
  is the null pointer: an access through it is undefined, and a call that
  makes one stops there with the outcome `fault`.
* The hardware side is a simulated peripheral: every operation the master
  kicks off keeps the busy status asserted for a number of polls taken from
  the list `delays`, a receive delivers the next byte of `rx` into `SSPBUF`
  when it completes, and every register access that drives the bus is appended
  to `log` together with the busy status at that moment.
* `I2C_Master_Wait` is the source's `while` loop, bounded by a fuel argument
  (the number of polls one wait may take); the functions built on it pass the
  same fuel to each wait and return `none` (`timeout` for the functions that
  dereference pointers) when a wait runs out of fuel.

XC8 integer widths are used: `char` is unsigned 8 bit, `int`/`unsigned` are
16 bit, `unsigned long` is 32 bit.
-/

namespace I2C

/-! ## Constants of the source -/

/-- Oscillator frequency, `#define _XTAL_FREQ 8000000`. -/
def _XTAL_FREQ : Nat := 8000000

/-- Direction bit for a read, `#define READ 1`. -/
def READ : Nat := 1

/-- Direction bit for a write, `#define WRITE 0`. -/
def WRITE : Nat := 0

/-! ## Registers -/

/-- Modelled from the spec: the bit layout of `SSPCON2`, declared in the device
header `xc.h` which is not part of the repository. Bits 0..4 (`SEN`, `RSEN`,
`PEN`, `RCEN`, `ACKEN`) are the condition bits covered by the mask `0x1F` of
the wait loop; bit 5 is the acknowledge data bit. -/
structure SSPCON2bits where
  SEN : Bool
  RSEN : Bool
  PEN : Bool
  RCEN : Bool
  ACKEN : Bool
  ACKDT : Bool
  ACKSTAT : Bool
  GCEN : Bool
deriving DecidableEq, Repr

/-- Modelled from the spec: the bit layout of `SSPSTAT`, declared in the device
header `xc.h` which is not part of the repository. Bit 2 (`R_nW`, mask `0x04`)
is the transmit-in-progress flag polled by the wait loop. -/
structure SSPSTATbits where
  BF : Bool
  UA : Bool
  R_nW : Bool
  S : Bool
  P : Bool
  D_nA : Bool
  CKE : Bool
  SMP : Bool
deriving DecidableEq, Repr

/-- Numeric value of a bit. -/
def bit (b : Bool) (k : Nat) : Nat := if b then 2 ^ k else 0

/-- The byte read from `SSPCON2`. -/
def SSPCON2bits.toNat (r : SSPCON2bits) : Nat :=
  bit r.SEN 0 + bit r.RSEN 1 + bit r.PEN 2 + bit r.RCEN 3 + bit r.ACKEN 4 +
    bit r.ACKDT 5 + bit r.ACKSTAT 6 + bit r.GCEN 7

/-- The register contents after the byte `n` is written to `SSPCON2`. -/
def SSPCON2bits.ofNat (n : Nat) : SSPCON2bits :=
  ⟨n.testBit 0, n.testBit 1, n.testBit 2, n.testBit 3, n.testBit 4, n.testBit 5,
    n.testBit 6, n.testBit 7⟩

/-- The byte read from `SSPSTAT`. -/
def SSPSTATbits.toNat (r : SSPSTATbits) : Nat :=
  bit r.BF 0 + bit r.UA 1 + bit r.R_nW 2 + bit r.S 3 + bit r.P 4 +
    bit r.D_nA 5 + bit r.CKE 6 + bit r.SMP 7

/-- The register contents after the byte `n` is written to `SSPSTAT`. -/
def SSPSTATbits.ofNat (n : Nat) : SSPSTATbits :=
  ⟨n.testBit 0, n.testBit 1, n.testBit 2, n.testBit 3, n.testBit 4, n.testBit 5,
    n.testBit 6, n.testBit 7⟩

/-! ## Bus operations and the peripheral state -/

/-- What the master asks of the peripheral. `Write content` carries the argument
of `I2C_Master_Write` (an `unsigned`); the shift buffer receives its low byte.
`Ack d` is the start of an acknowledge sequence with `ACKDT = d`. -/
inductive BusOp where
  | Start
  | Restart
  | Stop
  | Write (content : Nat)
  | RecvEnable
  | Capture (value : Nat)
  | Ack (ackdt : Bool)
deriving DecidableEq, Repr

/-- A logged operation with the busy status at the moment it was issued. -/
structure Event where
  op : BusOp
  whileBusy : Bool
deriving DecidableEq, Repr

/-- Registers, data memory and the simulated hardware. -/
structure Periph where
  SSPCON : Nat
  SSPCON2 : SSPCON2bits
  SSPADD : Nat
  SSPSTAT : SSPSTATbits
  SSPBUF : Nat
  TRISC3 : Bool
  TRISC4 : Bool
  /-- data memory, one byte per address -/
  mem : Nat → Nat
  /-- polls for which the operation in flight still keeps the busy status -/
  countdown : Nat
  /-- busy durations of the operations still to come -/
  delays : List Nat
  /-- bytes the addressed device will supply -/
  rx : List Nat
  /-- byte being shifted in by the receive in flight -/
  shiftIn : Option Nat
  /-- operations issued so far, oldest first -/
  log : List Event

/-- Read of an `unsigned char` through a pointer; undefined (`none`) through
the null pointer. -/
def load (mem : Nat → Nat) (a : Nat) : Option Nat :=
  if a = 0 then none else some (mem a % 256)

/-- Write of a value to an `unsigned char` through a pointer; undefined
(`none`) through the null pointer. -/
def store (mem : Nat → Nat) (a v : Nat) : Option (Nat → Nat) :=
  if a = 0 then none else some fun x => if x = a then v % 256 else mem x

/-- How a call of a function that dereferences pointers ends. -/
inductive Outcome where
  /-- the call returned, leaving this state -/
  | returned (p : Periph)
  /-- the call made an undefined access in this state and went no further -/
  | fault (p : Periph)
  /-- a wait ran out of fuel -/
  | timeout

/-- Outcome of a call of a function that dereferences no pointer. -/
def Outcome.ofOption : Option Periph → Outcome
  | some p => .returned p
  | none => .timeout

/-- Sequencing: the next statement runs only after a return. -/
def Outcome.bind : Outcome → (Periph → Outcome) → Outcome
  | .returned p, f => f p
  | .fault p, _ => .fault p
  | .timeout, _ => .timeout

/-- The condition of the wait loop: `(SSPSTAT & 0x04) || (SSPCON2 & 0x1F)`. -/
def Periph.busy (p : Periph) : Bool :=
  (p.SSPSTAT.toNat &&& 0x04 != 0) || (p.SSPCON2.toNat &&& 0x1F != 0)

/-! ## Simulated hardware -/

/-- The operation in flight finishes: the hardware clears the transmit flag
and the five condition bits and, after a receive, loads the byte into
`SSPBUF`. -/
def Periph.complete (p : Periph) : Periph :=
  { p with
    SSPSTAT := { p.SSPSTAT with R_nW := false }
    SSPCON2 := { p.SSPCON2 with SEN := false, RSEN := false, PEN := false,
                                RCEN := false, ACKEN := false }
    SSPBUF := match p.shiftIn with
      | some b => b % 256
      | none => p.SSPBUF
    shiftIn := none }

/-- One poll of the status registers elapses. -/
def Periph.tick (p : Periph) : Periph :=
  if p.countdown = 0 then p.complete else { p with countdown := p.countdown - 1 }

/-- An operation is kicked off: its busy duration is the next entry of
`delays` (0 when the list is exhausted). -/
def Periph.kick (p : Periph) : Periph :=
  { p with countdown := p.delays.headD 0, delays := p.delays.tail }

/-- Append an operation to the log with the current busy status. -/
def Periph.record (p : Periph) (o : BusOp) : Periph :=
  { p with log := p.log ++ [⟨o, p.busy⟩] }

/-! ## Register accesses of the source -/

/-- `SEN = 1;` -/
def setSEN (p : Periph) : Periph :=
  let q := p.record .Start
  { q with SSPCON2 := { q.SSPCON2 with SEN := true } }.kick

/-- `RSEN = 1;` -/
def setRSEN (p : Periph) : Periph :=
  let q := p.record .Restart
  { q with SSPCON2 := { q.SSPCON2 with RSEN := true } }.kick

/-- `PEN = 1;` -/
def setPEN (p : Periph) : Periph :=
  let q := p.record .Stop
  { q with SSPCON2 := { q.SSPCON2 with PEN := true } }.kick

/-- `RCEN = 1;` the receive takes the next byte the device supplies. -/
def setRCEN (p : Periph) : Periph :=
  let q := p.record .RecvEnable
  { q with SSPCON2 := { q.SSPCON2 with RCEN := true }
           shiftIn := q.rx.head?
           rx := q.rx.tail }.kick

/-- `ACKDT = d;` -/
def setACKDT (d : Bool) (p : Periph) : Periph :=
  { p with SSPCON2 := { p.SSPCON2 with ACKDT := d } }

/-- `ACKEN = 1;` -/
def setACKEN (p : Periph) : Periph :=
  let q := p.record (.Ack p.SSPCON2.ACKDT)
  { q with SSPCON2 := { q.SSPCON2 with ACKEN := true } }.kick

/-- `SSPBUF = content;` the 8-bit register keeps the low byte and the
transmission starts. -/
def writeSSPBUF (content : Nat) (p : Periph) : Periph :=
  let q := p.record (.Write content)
  { q with SSPBUF := content % 256
           SSPSTAT := { q.SSPSTAT with R_nW := true } }.kick

/-- `temp = SSPBUF;` -/
def readSSPBUF (p : Periph) : Nat × Periph :=
  (p.SSPBUF, p.record (.Capture p.SSPBUF))

/-! ## The functions of `i2c.c` -/

/-- `I2C_Master_Init`: `clockspeed` is an `unsigned long`, so `4*clockspeed`
and the subtraction wrap modulo `2^32`; `SSPADD` keeps the low byte. A zero
divisor is a division by zero (`none`). -/
def I2C_Master_Init (clockspeed : Nat) (p : Periph) : Option Periph :=
  let d := (4 * clockspeed) % 2 ^ 32
  if d = 0 then none
  else
    some { p with
      SSPCON := 0b00101000
      SSPCON2 := SSPCON2bits.ofNat 0
      SSPADD := ((_XTAL_FREQ / d + 2 ^ 32 - 1) % 2 ^ 32) % 256
      SSPSTAT := SSPSTATbits.ofNat 0
      TRISC3 := true
      TRISC4 := true }

/-- `I2C_Master_Wait`: `while ((SSPSTAT & 0x04) || (SSPCON2 & 0x1F));` with at
most `fuel` evaluations of the condition. -/
def I2C_Master_Wait : Nat → Periph → Option Periph
  | 0, _ => none
  | fuel + 1, p => if p.busy then I2C_Master_Wait fuel p.tick else some p

/-- `I2C_Master_Start`. -/
def I2C_Master_Start (fuel : Nat) (p : Periph) : Option Periph :=
  (I2C_Master_Wait fuel p).map setSEN

/-- `I2C_Master_Restart`. -/
def I2C_Master_Restart (fuel : Nat) (p : Periph) : Option Periph :=
  (I2C_Master_Wait fuel p).map setRSEN

/-- `I2C_Master_Stop`. -/
def I2C_Master_Stop (fuel : Nat) (p : Periph) : Option Periph :=
  (I2C_Master_Wait fuel p).map setPEN

/-- `I2C_Master_sendACK`: no wait in the source. -/
def I2C_Master_sendACK (p : Periph) : Periph :=
  setACKEN (setACKDT false p)

/-- `I2C_Master_sendNAK`: no wait in the source. -/
def I2C_Master_sendNAK (p : Periph) : Periph :=
  setACKEN (setACKDT true p)

/-- `I2C_Master_Write`. -/
def I2C_Master_Write (fuel : Nat) (content : Nat) (p : Periph) : Option Periph :=
  (I2C_Master_Wait fuel p).map (writeSSPBUF content)

/-- `I2C_Master_CallSlave`: `address + rw` is computed in `int` and converted
to the 16-bit `unsigned` parameter of `I2C_Master_Write`. -/
def I2C_Master_CallSlave (fuel : Nat) (address rw : Nat) (p : Periph) : Option Periph :=
  I2C_Master_Write fuel ((address + rw) % 2 ^ 16) p

/-- `I2C_Master_CallSlavePlus`. -/
def I2C_Master_CallSlavePlus (fuel : Nat) (address rw : Nat) (p : Periph) :
    Option Periph :=
  (I2C_Master_Start fuel p).bind fun p1 =>
    I2C_Master_Write fuel ((address + rw) % 2 ^ 16) p1

/-- `I2C_Master_WritePlus`. -/
def I2C_Master_WritePlus (fuel : Nat) (content : Nat) (p : Periph) : Option Periph :=
  (I2C_Master_Write fuel content p).bind fun p1 => I2C_Master_Stop fuel p1

/-- The `for` loop of `I2C_Master_WriteComplete`; the first argument is the
number of iterations left, `contentlength - i`. The argument `*content` is
read before the call of `I2C_Master_Write`. -/
def WriteComplete_loop (fuel : Nat) : Nat → Nat → Periph → Outcome
  | 0, _, p => .returned p
  | k + 1, content, p =>
    match load p.mem content with
    | none => .fault p
    | some b =>
      (Outcome.ofOption (I2C_Master_Write fuel b p)).bind fun p1 =>
        WriteComplete_loop fuel k (content + 1) p1

/-- `I2C_Master_WriteComplete`; `content` is a pointer. -/
def I2C_Master_WriteComplete (fuel : Nat) (address content contentlength : Nat)
    (p : Periph) : Outcome :=
  (Outcome.ofOption (I2C_Master_CallSlavePlus fuel address WRITE p)).bind fun p1 =>
    (WriteComplete_loop fuel contentlength content p1).bind fun p2 =>
      Outcome.ofOption (I2C_Master_Stop fuel p2)

/-- `I2C_Master_Read`. -/
def I2C_Master_Read (fuel : Nat) (acknowledge : Nat) (p : Periph) :
    Option (Nat × Periph) :=
  (I2C_Master_Wait fuel p).bind fun p1 =>
    (I2C_Master_Wait fuel (setRCEN p1)).bind fun p2 =>
      let temp := (readSSPBUF p2).1
      (I2C_Master_Wait fuel (readSSPBUF p2).2).bind fun p3 =>
        let p4 := setACKDT (if acknowledge ≠ 0 then false else true) p3
        some (temp, setACKEN p4)

/-- `I2C_Master_ReadPlus`. -/
def I2C_Master_ReadPlus (fuel : Nat) (acknowledge : Nat) (p : Periph) :
    Option (Nat × Periph) :=
  (I2C_Master_Read fuel acknowledge p).bind fun r =>
    (I2C_Master_Stop fuel r.2).map fun p2 => (r.1, p2)

/-- The `for` loop of `I2C_Master_ReadComplete`:
`*byte = I2C_Master_Read(*byte); byte++;`. -/
def ReadComplete_loop (fuel : Nat) : Nat → Nat → Periph → Outcome
  | 0, _, p => .returned p
  | k + 1, byte, p =>
    match load p.mem byte with
    | none => .fault p
    | some a =>
      match I2C_Master_Read fuel a p with
      | none => .timeout
      | some (v, p1) =>
        match store p1.mem byte v with
        | none => .fault p1
        | some m => ReadComplete_loop fuel k (byte + 1) { p1 with mem := m }

/-- `I2C_Master_ReadComplete`; `byte` is a pointer. The register-select write
is `I2C_Master_WriteComplete(address, 0, 1)`: its pointer argument is the
literal `0`, the null pointer. -/
def I2C_Master_ReadComplete (fuel : Nat) (address byte contentlength : Nat)
    (p : Periph) : Outcome :=
  (I2C_Master_WriteComplete fuel address 0 1 p).bind fun p1 =>
    (Outcome.ofOption (I2C_Master_CallSlavePlus fuel address READ p1)).bind fun p2 =>
      (ReadComplete_loop fuel contentlength byte p2).bind fun p3 =>
        Outcome.ofOption (I2C_Master_Stop fuel p3)

/-! ## Vocabulary of the statements -/

/-- Events issued while the busy status is clear. -/
def idle (ops : List BusOp) : List Event := ops.map fun o => ⟨o, false⟩

/-- The `n` bytes stored at `ptr`, `ptr + 1`, ..., `ptr + n - 1`, when reading
each of them is defined. -/
def bytesAt (mem : Nat → Nat) : Nat → Nat → Option (List Nat)
  | _, 0 => some []
  | ptr, n + 1 =>
    match load mem ptr with
    | none => none
    | some b => (bytesAt mem (ptr + 1) n).map fun bs => b :: bs

/-- The call stopped at an undefined access. -/
def Outcome.isFault : Outcome → Bool
  | .fault _ => true
  | _ => false

/-- The state in which the call returned or stopped. -/
def Outcome.state? : Outcome → Option Periph
  | .returned p => some p
  | .fault p => some p
  | .timeout => none

/-- The fuel covers every wait: the operation in flight and every later one
keep the busy status for fewer than `fuel - 1` polls. -/
def Ready (fuel : Nat) (p : Periph) : Prop :=
  p.countdown + 1 < fuel ∧ ∀ d ∈ p.delays, d + 1 < fuel

instance (fuel : Nat) (p : Periph) : Decidable (Ready fuel p) := by
  unfold Ready; infer_instance

/-- Accesses to the shift buffer and the receive enable: `SSPBUF = ...`,
`RCEN = 1`, `... = SSPBUF`. -/
def BusOp.isByteAccess : BusOp → Bool
  | .Write _ => true
  | .RecvEnable => true
  | .Capture _ => true
  | _ => false

/-- Every byte access of `p'` issued after `p` happened with the busy status
clear. -/
def IdleAccesses (p p' : Periph) : Prop :=
  ∃ evs, p'.log = p.log ++ evs ∧
    ∀ e ∈ evs, e.op.isByteAccess = true → e.whileBusy = false

/-- From `p`, the operations `ops` were issued with the busy status clear and
enough fuel remains; memory and the bytes still to be supplied are untouched. -/
structure Step (fuel : Nat) (p p' : Periph) (ops : List BusOp) : Prop where
  ready : Ready fuel p'
  log : p'.log = p.log ++ idle ops
  mem : p'.mem = p.mem
  rx : p'.rx = p.rx

/-- The state a wait returns: an operation in flight has completed. -/
def settle (p : Periph) : Periph :=
  if p.busy then { p with countdown := 0 }.complete else p

/-- A quiet peripheral whose coming operations stay busy for 2, 0, 1, 3, ...
polls, whose device supplies 7, 9, 11, with the bytes 1, 2 at addresses 16,
17 (and `0xAA` in the cell numbered 0, which no defined access reads). -/
def p0 : Periph :=
  { SSPCON := 0, SSPCON2 := SSPCON2bits.ofNat 0, SSPADD := 0,
    SSPSTAT := SSPSTATbits.ofNat 0, SSPBUF := 0, TRISC3 := false, TRISC4 := false,
    mem := fun a => if a = 0 then 0xAA else if a = 16 then 1 else if a = 17 then 2 else 0,
    countdown := 0, delays := [2, 0, 1, 3, 2, 1, 0, 2, 1, 1, 0, 3, 1, 2, 0, 1],
    rx := [7, 9, 11], shiftIn := none, log := [] }

/-! ## The wait loop -/

theorem SSPSTAT_mask (r : SSPSTATbits) : (r.toNat &&& 0x04 != 0) = r.R_nW := by
  rcases r with ⟨a, b, c, d, e, f, g, h⟩
  cases a <;> cases b <;> cases c <;> cases d <;> cases e <;> cases f <;>
    cases g <;> cases h <;> rfl

theorem SSPCON2_mask (r : SSPCON2bits) :
    (r.toNat &&& 0x1F != 0) = (r.SEN || r.RSEN || r.PEN || r.RCEN || r.ACKEN) := by
  rcases r with ⟨a, b, c, d, e, f, g, h⟩
  cases a <;> cases b <;> cases c <;> cases d <;> cases e <;> cases f <;>
    cases g <;> cases h <;> rfl

theorem busy_eq (p : Periph) :
    p.busy = (p.SSPSTAT.R_nW || (p.SSPCON2.SEN || p.SSPCON2.RSEN || p.SSPCON2.PEN ||
      p.SSPCON2.RCEN || p.SSPCON2.ACKEN)) := by
  unfold Periph.busy
  rw [SSPSTAT_mask, SSPCON2_mask]

theorem busy_complete (p : Periph) : p.complete.busy = false := by
  rw [busy_eq]; rfl

theorem busy_settle (p : Periph) : (settle p).busy = false := by
  unfold settle
  by_cases h : p.busy = true
  · rw [if_pos h]; exact busy_complete _
  · rw [if_neg h]; simpa using h

theorem settle_of_idle (p : Periph) (h : p.busy = false) : settle p = p := by
  unfold settle; simp [h]

theorem Wait_eq (fuel : Nat) (p : Periph) (h : p.countdown + 1 < fuel) :
    I2C_Master_Wait fuel p = some (settle p) := by
  generalize hn : p.countdown = n at h
  induction n generalizing p fuel with
  | zero =>
    obtain ⟨f, rfl⟩ : ∃ f, fuel = f + 2 := ⟨fuel - 2, by omega⟩
    by_cases hb : p.busy = true
    · have ht : p.tick = p.complete := by simp [Periph.tick, hn]
      have hs : settle p = p.complete := by
        unfold settle; rw [if_pos hb]
        cases p; simp only at hn; subst hn; rfl
      rw [I2C_Master_Wait, if_pos hb, ht, I2C_Master_Wait, busy_complete, hs]
      simp
    · rw [I2C_Master_Wait, if_neg hb, settle_of_idle p (by simpa using hb)]
  | succ n ih =>
    obtain ⟨f, rfl⟩ : ∃ f, fuel = f + 1 := ⟨fuel - 1, by omega⟩
    by_cases hb : p.busy = true
    · have ht : p.tick = { p with countdown := n } := by
        simp [Periph.tick, hn]
      have hb2 : ({ p with countdown := n } : Periph).busy = true := hb
      have hs : settle { p with countdown := n } = settle p := by
        unfold settle; rw [if_pos hb, if_pos hb2]
      rw [I2C_Master_Wait, if_pos hb, ht, ih f _ rfl (by omega), hs]
    · rw [I2C_Master_Wait, if_neg hb, settle_of_idle p (by simpa using hb)]

theorem settle_log (p : Periph) : (settle p).log = p.log := by
  unfold settle; split <;> rfl

theorem settle_mem (p : Periph) : (settle p).mem = p.mem := by
  unfold settle; split <;> rfl

theorem settle_rx (p : Periph) : (settle p).rx = p.rx := by
  unfold settle; split <;> rfl

theorem settle_delays (p : Periph) : (settle p).delays = p.delays := by
  unfold settle; split <;> rfl

theorem settle_ACKDT (p : Periph) : (settle p).SSPCON2.ACKDT = p.SSPCON2.ACKDT := by
  unfold settle; split <;> rfl

theorem settle_countdown (p : Periph) : (settle p).countdown ≤ p.countdown := by
  unfold settle; split
  · exact Nat.zero_le _
  · exact Nat.le_refl _

/-! ## Fuel bookkeeping -/

theorem Ready.mono {fuel : Nat} {p q : Periph} (h : Ready fuel p)
    (hc : q.countdown ≤ p.countdown) (hd : q.delays = p.delays) : Ready fuel q := by
  refine ⟨by have := h.1; omega, ?_⟩
  rw [hd]; exact h.2

theorem Ready.settle {fuel : Nat} {p : Periph} (h : Ready fuel p) :
    Ready fuel (settle p) :=
  h.mono (settle_countdown p) (settle_delays p)

theorem Ready.kick {fuel : Nat} {p : Periph} (h : Ready fuel p) (q : Periph)
    (hd : q.delays = p.delays) : Ready fuel q.kick := by
  have h1 := h.1
  have h2 := h.2
  unfold Periph.kick
  unfold Ready
  simp only [hd]
  cases hl : p.delays with
  | nil => exact ⟨by simp; omega, by simp⟩
  | cons d ds =>
    rw [hl] at h2
    refine ⟨by simpa using h2 d (by simp), ?_⟩
    intro x hx
    exact h2 x (by simp at hx ⊢; exact Or.inr hx)

theorem idle_append (a b : List BusOp) : idle (a ++ b) = idle a ++ idle b := by
  simp [idle]

theorem Step.trans {fuel : Nat} {p p1 p2 : Periph} {a b : List BusOp}
    (h1 : Step fuel p p1 a) (h2 : Step fuel p1 p2 b) : Step fuel p p2 (a ++ b) where
  ready := h2.ready
  log := by rw [h2.log, h1.log, idle_append, List.append_assoc]
  mem := by rw [h2.mem, h1.mem]
  rx := by rw [h2.rx, h1.rx]

/-! ## Primitives -/

theorem Start_spec {fuel : Nat} {p : Periph} (h : Ready fuel p) :
    ∃ p', I2C_Master_Start fuel p = some p' ∧ Step fuel p p' [.Start] := by
  refine ⟨setSEN (settle p), by simp [I2C_Master_Start, Wait_eq fuel p h.1], ?_, ?_, ?_, ?_⟩
  · exact h.kick _ (settle_delays p)
  · show (settle p).log ++ [⟨.Start, (settle p).busy⟩] = _
    rw [busy_settle, settle_log]; rfl
  · exact settle_mem p
  · exact settle_rx p

theorem Restart_spec {fuel : Nat} {p : Periph} (h : Ready fuel p) :
    ∃ p', I2C_Master_Restart fuel p = some p' ∧ Step fuel p p' [.Restart] := by
  refine ⟨setRSEN (settle p), by simp [I2C_Master_Restart, Wait_eq fuel p h.1],
    ?_, ?_, ?_, ?_⟩
  · exact h.kick _ (settle_delays p)
  · show (settle p).log ++ [⟨.Restart, (settle p).busy⟩] = _
    rw [busy_settle, settle_log]; rfl
  · exact settle_mem p
  · exact settle_rx p

theorem Stop_spec {fuel : Nat} {p : Periph} (h : Ready fuel p) :
    ∃ p', I2C_Master_Stop fuel p = some p' ∧ Step fuel p p' [.Stop] := by
  refine ⟨setPEN (settle p), by simp [I2C_Master_Stop, Wait_eq fuel p h.1], ?_, ?_, ?_, ?_⟩
  · exact h.kick _ (settle_delays p)
  · show (settle p).log ++ [⟨.Stop, (settle p).busy⟩] = _
    rw [busy_settle, settle_log]; rfl
  · exact settle_mem p
  · exact settle_rx p

theorem Write_spec {fuel : Nat} {p : Periph} (content : Nat) (h : Ready fuel p) :
    ∃ p', I2C_Master_Write fuel content p = some p' ∧ Step fuel p p' [.Write content] ∧
      p'.SSPBUF = content % 256 := by
  refine ⟨writeSSPBUF content (settle p),
    by simp [I2C_Master_Write, Wait_eq fuel p h.1], ⟨?_, ?_, ?_, ?_⟩, rfl⟩
  · exact h.kick _ (settle_delays p)
  · show (settle p).log ++ [⟨.Write content, (settle p).busy⟩] = _
    rw [busy_settle, settle_log]; rfl
  · exact settle_mem p
  · exact settle_rx p

theorem CallSlavePlus_spec {fuel : Nat} {p : Periph} (address rw : Nat)
    (h : Ready fuel p) :
    ∃ p', I2C_Master_CallSlavePlus fuel address rw p = some p' ∧
      Step fuel p p' [.Start, .Write ((address + rw) % 2 ^ 16)] := by
  obtain ⟨p1, e1, s1⟩ := Start_spec h
  obtain ⟨p2, e2, s2, _⟩ := Write_spec ((address + rw) % 2 ^ 16) s1.ready
  exact ⟨p2, by rw [I2C_Master_CallSlavePlus, e1]; exact e2, s1.trans s2⟩

theorem WritePlus_spec {fuel : Nat} {p : Periph} (content : Nat) (h : Ready fuel p) :
    ∃ p', I2C_Master_WritePlus fuel content p = some p' ∧
      Step fuel p p' [.Write content, .Stop] := by
  obtain ⟨p1, e1, s1, _⟩ := Write_spec content h
  obtain ⟨p2, e2, s2⟩ := Stop_spec s1.ready
  exact ⟨p2, by simp [I2C_Master_WritePlus, e1, e2], s1.trans s2⟩

theorem WriteComplete_loop_spec {fuel : Nat} (n : Nat) :
    ∀ (content : Nat) (p : Periph) (payload : List Nat), Ready fuel p →
      bytesAt p.mem content n = some payload →
      ∃ p', WriteComplete_loop fuel n content p = .returned p' ∧
        Step fuel p p' (payload.map .Write) := by
  induction n with
  | zero =>
    intro content p payload h hm
    simp only [bytesAt, Option.some.injEq] at hm
    subst hm
    exact ⟨p, rfl, h, by simp [idle], rfl, rfl⟩
  | succ k ih =>
    intro content p payload h hm
    rw [bytesAt] at hm
    cases hl : load p.mem content with
    | none => rw [hl] at hm; simp at hm
    | some b =>
      rw [hl] at hm
      simp only [Option.map_eq_some'] at hm
      obtain ⟨bs, hbs, rfl⟩ := hm
      obtain ⟨p1, e1, s1, _⟩ := Write_spec b h
      obtain ⟨p2, e2, s2⟩ := ih (content + 1) p1 bs s1.ready (by rw [s1.mem]; exact hbs)
      refine ⟨p2, ?_, ?_⟩
      · rw [WriteComplete_loop, hl]
        simp only [e1, Outcome.ofOption, Outcome.bind]
        exact e2
      · simpa using s1.trans s2

theorem WriteComplete_loop_any {fuel : Nat} (n : Nat) :
    ∀ (content : Nat) (p : Periph), Ready fuel p →
      ∃ q ops, Step fuel p q ops ∧
        WriteComplete_loop fuel n content p =
          (if (bytesAt p.mem content n).isSome then .returned q else .fault q) := by
  induction n with
  | zero =>
    intro content p h
    exact ⟨p, [], ⟨h, by simp [idle], rfl, rfl⟩, by simp [WriteComplete_loop, bytesAt]⟩
  | succ k ih =>
    intro content p h
    cases hl : load p.mem content with
    | none =>
      exact ⟨p, [], ⟨h, by simp [idle], rfl, rfl⟩,
        by simp [WriteComplete_loop, bytesAt, hl]⟩
    | some b =>
      obtain ⟨p1, e1, s1, _⟩ := Write_spec b h
      obtain ⟨q, ops, s2, e2⟩ := ih (content + 1) p1 s1.ready
      refine ⟨q, _, s1.trans s2, ?_⟩
      rw [WriteComplete_loop, hl, bytesAt, hl]
      simp only [e1, Outcome.ofOption, Outcome.bind, Option.isSome_map']
      rw [e2, s1.mem]

theorem WriteComplete_spec {fuel : Nat} {p : Periph} (address content n : Nat)
    (payload : List Nat) (h : Ready fuel p)
    (hm : bytesAt p.mem content n = some payload) :
    ∃ p', I2C_Master_WriteComplete fuel address content n p = .returned p' ∧
      Step fuel p p' ([.Start, .Write ((address + WRITE) % 2 ^ 16)] ++
        payload.map .Write ++ [.Stop]) := by
  obtain ⟨p1, e1, s1⟩ := CallSlavePlus_spec address WRITE h
  obtain ⟨p2, e2, s2⟩ :=
    WriteComplete_loop_spec n content p1 payload s1.ready (by rw [s1.mem]; exact hm)
  obtain ⟨p3, e3, s3⟩ := Stop_spec s2.ready
  refine ⟨p3, ?_, (s1.trans s2).trans s3⟩
  simp only [I2C_Master_WriteComplete, e1, e2, e3, Outcome.ofOption, Outcome.bind]

theorem WriteComplete_any {fuel : Nat} {p : Periph} (address content n : Nat)
    (h : Ready fuel p) :
    ∃ q ops, q.log = p.log ++ idle ops ∧
      I2C_Master_WriteComplete fuel address content n p =
        (if (bytesAt p.mem content n).isSome then .returned q else .fault q) := by
  obtain ⟨p1, e1, s1⟩ := CallSlavePlus_spec address WRITE h
  obtain ⟨p2, ops, s2, e2⟩ := WriteComplete_loop_any n content p1 s1.ready
  rw [s1.mem] at e2
  by_cases hv : (bytesAt p.mem content n).isSome = true
  · obtain ⟨p3, e3, s3⟩ := Stop_spec s2.ready
    refine ⟨p3, _, ((s1.trans s2).trans s3).log, ?_⟩
    rw [if_pos hv] at e2 ⊢
    simp only [I2C_Master_WriteComplete, e1, e2, e3, Outcome.ofOption, Outcome.bind]
  · refine ⟨p2, _, (s1.trans s2).log, ?_⟩
    rw [if_neg hv] at e2 ⊢
    simp only [I2C_Master_WriteComplete, e1, e2, Outcome.ofOption, Outcome.bind]

/-- Every call of `I2C_Master_ReadComplete` stops in its register-select
frame: the select byte is read through the null pointer. -/
theorem ReadComplete_fault {fuel : Nat} {p : Periph} (address byte n : Nat)
    (h : Ready fuel p) :
    ∃ q, I2C_Master_WriteComplete fuel address 0 1 p = .fault q ∧
      I2C_Master_ReadComplete fuel address byte n p = .fault q ∧
      Step fuel p q [.Start, .Write ((address + WRITE) % 2 ^ 16)] := by
  obtain ⟨p1, e1, s1⟩ := CallSlavePlus_spec address WRITE h
  have hw : I2C_Master_WriteComplete fuel address 0 1 p = .fault p1 := by
    simp only [I2C_Master_WriteComplete, e1, Outcome.ofOption, Outcome.bind,
      WriteComplete_loop, load, if_true]
  refine ⟨p1, hw, ?_, s1⟩
  simp only [I2C_Master_ReadComplete, hw, Outcome.bind]

/-! ## Reading -/

theorem busy_setRCEN (p : Periph) : (setRCEN p).busy = true := by
  rw [busy_eq]; simp [setRCEN, Periph.kick, Periph.record]

theorem busy_setACKDT (d : Bool) (p : Periph) : (setACKDT d p).busy = p.busy := by
  rw [busy_eq, busy_eq]; rfl

theorem settle_setRCEN (p : Periph) :
    (settle (setRCEN p)).SSPBUF =
      (match p.rx.head? with
        | some b => b % 256
        | none => p.SSPBUF) := by
  unfold settle
  rw [if_pos (busy_setRCEN p)]
  rfl

theorem ack_bit (a : Nat) : (if a ≠ 0 then false else true) = decide (a = 0) := by
  by_cases h : a = 0 <;> simp [h]

theorem Read_spec {fuel : Nat} {p : Periph} (a : Nat) (h : Ready fuel p) :
    ∃ v p', I2C_Master_Read fuel a p = some (v, p') ∧ Ready fuel p' ∧
      p'.log = p.log ++ idle [.RecvEnable, .Capture v, .Ack (decide (a = 0))] ∧
      p'.mem = p.mem ∧ p'.rx = p.rx.tail ∧
      p'.SSPCON2.ACKDT = decide (a = 0) ∧ p'.SSPCON2.ACKEN = true ∧
      (∀ b, p.rx.head? = some b → v = b % 256) := by
  have hq1 : Ready fuel (setRCEN (settle p)) := h.kick _ (settle_delays p)
  have hp2 : Ready fuel (settle (setRCEN (settle p))) := hq1.settle
  have hq2 : Ready fuel (readSSPBUF (settle (setRCEN (settle p)))).2 :=
    hp2.mono (Nat.le_refl _) rfl
  have hidle : (readSSPBUF (settle (setRCEN (settle p)))).2.busy = false :=
    busy_settle (setRCEN (settle p))
  refine ⟨(settle (setRCEN (settle p))).SSPBUF,
    setACKEN (setACKDT (decide (a = 0)) (readSSPBUF (settle (setRCEN (settle p)))).2),
    ?_, ?_, ?_, ?_, ?_, rfl, rfl, ?_⟩
  · rw [I2C_Master_Read, Wait_eq fuel p h.1]
    simp only [Option.some_bind]
    rw [Wait_eq fuel _ hq1.1]
    simp only [Option.some_bind]
    rw [Wait_eq fuel _ hq2.1, settle_of_idle _ hidle]
    simp only [Option.some_bind, ack_bit]
    rfl
  · exact hq2.kick _ rfl
  · show ((settle (setRCEN (settle p))).log ++
        [⟨.Capture (settle (setRCEN (settle p))).SSPBUF,
          (settle (setRCEN (settle p))).busy⟩]) ++
        [⟨.Ack (decide (a = 0)), (setACKDT (decide (a = 0))
          (readSSPBUF (settle (setRCEN (settle p)))).2).busy⟩] = _
    rw [busy_setACKDT, hidle, busy_settle, settle_log]
    show (((settle p).log ++ [⟨.RecvEnable, (settle p).busy⟩]) ++ _) ++ _ = _
    rw [busy_settle, settle_log]
    simp [idle]
  · show (settle (setRCEN (settle p))).mem = _
    rw [settle_mem]
    exact settle_mem p
  · show (settle (setRCEN (settle p))).rx = _
    rw [settle_rx]
    show (settle p).rx.tail = _
    rw [settle_rx]
  · intro b hb
    rw [settle_setRCEN, settle_rx, hb]

theorem ReadPlus_spec {fuel : Nat} {p : Periph} (a : Nat) (h : Ready fuel p) :
    ∃ v p', I2C_Master_ReadPlus fuel a p = some (v, p') ∧ Ready fuel p' ∧
      p'.log = p.log ++
        idle [.RecvEnable, .Capture v, .Ack (decide (a = 0)), .Stop] := by
  obtain ⟨v, p1, e1, r1, l1, -⟩ := Read_spec a h
  obtain ⟨p2, e2, s2⟩ := Stop_spec r1
  refine ⟨v, p2, by simp [I2C_Master_ReadPlus, e1, e2], s2.ready, ?_⟩
  rw [s2.log, l1]
  simp [idle]

theorem idleAccesses_of_log {p p' : Periph} {ops : List BusOp}
    (h : p'.log = p.log ++ idle ops) : IdleAccesses p p' := by
  refine ⟨idle ops, h, ?_⟩
  intro e he _
  simp only [idle, List.mem_map] at he
  obtain ⟨o, _, rfl⟩ := he
  rfl

theorem count_Start_Write (l : List Nat) : (l.map BusOp.Write).count .Start = 0 := by
  rw [List.count_eq_zero]
  simp

theorem count_Stop_Write (l : List Nat) : (l.map BusOp.Write).count .Stop = 0 := by
  rw [List.count_eq_zero]
  simp

/-! ## The claims -/

/-- C1: for an address and a payload of `n` bytes stored at `content`,
`I2C_Master_WriteComplete(address, content, n)` returns and appends to the log
exactly Start, Write(address + WRITE), Write(payload[0]), ..., Write(payload[n-1]),
Stop, every operation issued with the busy status clear; for the empty payload
the sequence is Start, Write(address + WRITE), Stop. -/
theorem WriteComplete_trace (fuel address content : Nat) (payload : List Nat)
    (p : Periph) (hfuel : Ready fuel p) (_haddr : address < 256)
    (_hlen : payload.length ≤ 255)
    (hmem : bytesAt p.mem content payload.length = some payload) :
    ∃ p', I2C_Master_WriteComplete fuel address content payload.length p =
        .returned p' ∧
      p'.log = p.log ++
        idle ([.Start, .Write (address + WRITE)] ++ payload.map .Write ++ [.Stop]) := by
  obtain ⟨p', e, s⟩ :=
    WriteComplete_spec address content payload.length payload hfuel hmem
  refine ⟨p', e, ?_⟩
  rw [s.log, Nat.mod_eq_of_lt (by simp only [WRITE]; omega)]

/-- C1, the scenario of the specification: `WriteComplete(0x50, [0x01, 0x02], 2)`
yields Start, Write(0x50), Write(0x01), Write(0x02), Stop. -/
theorem WriteComplete_trace_witness :
    ∃ p', I2C_Master_WriteComplete 6 0x50 16 2 p0 = .returned p' ∧
      p'.log = idle [.Start, .Write 0x50, .Write 0x01, .Write 0x02, .Stop] :=
  WriteComplete_trace 6 0x50 16 [0x01, 0x02] p0 (by decide) (by decide) (by decide)
    (by decide)

/-- C2: what the code does. After `I2C_Master_Read(a)` returns, `ACKEN` has been
set and `ACKDT` is 1 exactly when `a = 0` (and 0 when `a` is nonzero): the
source assigns `ACKDT = (acknowledge) ? 0 : 1`, the opposite of the documented
meaning of the argument. -/
theorem Read_ACKDT_inverted (fuel a : Nat) (p : Periph) (hfuel : Ready fuel p) :
    ∃ v p', I2C_Master_Read fuel a p = some (v, p') ∧
      p'.SSPCON2.ACKDT = decide (a = 0) ∧ p'.SSPCON2.ACKEN = true := by
  obtain ⟨v, p', e, -, -, -, -, hd, he, -⟩ := Read_spec a hfuel
  exact ⟨v, p', e, hd, he⟩

/-- C2 at the failing input: `I2C_Master_Read(0)` leaves `ACKDT = 1`. -/
theorem Read_ACKDT_inverted_witness :
    ∃ v p', I2C_Master_Read 6 0 p0 = some (v, p') ∧
      p'.SSPCON2.ACKDT = true ∧ p'.SSPCON2.ACKEN = true :=
  Read_ACKDT_inverted 6 0 p0 (by decide)

/-- C3, refuted as stated: a call of `I2C_Master_ReadComplete` with length 1
does not emit one Start and one terminating Stop. It stops at the null-pointer
read of its register-select frame, having issued Start and the address Write
and no Stop. -/
theorem ReadComplete_not_one_frame :
    (I2C_Master_ReadComplete 6 0x90 16 1 p0).isFault = true ∧
      (I2C_Master_ReadComplete 6 0x90 16 1 p0).state?.map
          (fun q => q.log.map Event.op) = some [.Start, .Write 0x90] := by
  decide

/-- C3, amended: for every address, every length `n` (0 and 1 included) and
every payload of `n` bytes that can be read at `ptr`, a call of
`I2C_Master_WriteComplete` returns having emitted exactly one Start and exactly
one Stop, the Stop being its last operation. -/
theorem WriteComplete_framing (fuel address ptr n : Nat) (p : Periph)
    (hfuel : Ready fuel p) (hpayload : (bytesAt p.mem ptr n).isSome = true) :
    ∃ p' ops, I2C_Master_WriteComplete fuel address ptr n p = .returned p' ∧
      p'.log = p.log ++ idle ops ∧ ops.count .Start = 1 ∧ ops.count .Stop = 1 ∧
      ops.getLast? = some .Stop := by
  obtain ⟨payload, hm⟩ := Option.isSome_iff_exists.1 hpayload
  obtain ⟨p', e, s⟩ := WriteComplete_spec address ptr n payload hfuel hm
  refine ⟨p', _, e, s.log, ?_, ?_, ?_⟩
  · simp [List.count_cons, count_Start_Write]
  · simp [List.count_cons, count_Stop_Write]
  · exact List.getLast?_concat _

/-- C3, amended, on calls with length 0 (null payload pointer) and length 2. -/
theorem WriteComplete_framing_witness :
    (∃ p' ops, I2C_Master_WriteComplete 6 0x50 0 0 p0 = .returned p' ∧
      p'.log = p0.log ++ idle ops ∧ ops.count .Start = 1 ∧ ops.count .Stop = 1 ∧
      ops.getLast? = some .Stop) ∧
    (∃ p' ops, I2C_Master_WriteComplete 6 0x50 16 2 p0 = .returned p' ∧
      p'.log = p0.log ++ idle ops ∧ ops.count .Start = 1 ∧ ops.count .Stop = 1 ∧
      ops.getLast? = some .Stop) :=
  ⟨WriteComplete_framing 6 0x50 0 0 p0 (by decide) (by decide),
    WriteComplete_framing 6 0x50 16 2 p0 (by decide) (by decide)⟩

/-- C4: whatever the busy durations of the simulated peripheral and whatever
state the call starts in (an operation may still be in flight), in every
execution of `I2C_Master_Write`, `I2C_Master_Read` and the helpers built on
them, every load of the shift buffer, every receive enable and every capture of
the received byte happened with the busy status clear. The helpers that
dereference no pointer return; `I2C_Master_WriteComplete` returns when its
payload can be read and otherwise stops at the undefined read;
`I2C_Master_ReadComplete` stops at the null-pointer read of its register-select
frame; in each case the property holds of everything issued up to that point. -/
theorem byte_accesses_idle (fuel content a address rw ptr n : Nat) (p : Periph)
    (hfuel : Ready fuel p) :
    (∃ p', I2C_Master_Write fuel content p = some p' ∧ IdleAccesses p p') ∧
    (∃ v p', I2C_Master_Read fuel a p = some (v, p') ∧ IdleAccesses p p') ∧
    (∃ p', I2C_Master_CallSlave fuel address rw p = some p' ∧ IdleAccesses p p') ∧
    (∃ p', I2C_Master_CallSlavePlus fuel address rw p = some p' ∧ IdleAccesses p p') ∧
    (∃ p', I2C_Master_WritePlus fuel content p = some p' ∧ IdleAccesses p p') ∧
    (∃ q, I2C_Master_WriteComplete fuel address ptr n p =
        (if (bytesAt p.mem ptr n).isSome then .returned q else .fault q) ∧
      IdleAccesses p q) ∧
    (∃ v p', I2C_Master_ReadPlus fuel a p = some (v, p') ∧ IdleAccesses p p') ∧
    (∃ q, I2C_Master_ReadComplete fuel address ptr n p = .fault q ∧
      IdleAccesses p q) := by
  refine ⟨?_, ?_, ?_, ?_, ?_, ?_, ?_, ?_⟩
  · obtain ⟨p', e, s, -⟩ := Write_spec content hfuel
    exact ⟨p', e, idleAccesses_of_log s.log⟩
  · obtain ⟨v, p', e, -, l, -⟩ := Read_spec a hfuel
    exact ⟨v, p', e, idleAccesses_of_log l⟩
  · obtain ⟨p', e, s, -⟩ := Write_spec ((address + rw) % 2 ^ 16) hfuel
    exact ⟨p', e, idleAccesses_of_log s.log⟩
  · obtain ⟨p', e, s⟩ := CallSlavePlus_spec address rw hfuel
    exact ⟨p', e, idleAccesses_of_log s.log⟩
  · obtain ⟨p', e, s⟩ := WritePlus_spec content hfuel
    exact ⟨p', e, idleAccesses_of_log s.log⟩
  · obtain ⟨q, ops, l, e⟩ := WriteComplete_any address ptr n hfuel
    exact ⟨q, e, idleAccesses_of_log l⟩
  · obtain ⟨v, p', e, -, l⟩ := ReadPlus_spec a hfuel
    exact ⟨v, p', e, idleAccesses_of_log l⟩
  · obtain ⟨q, -, e, s⟩ := ReadComplete_fault address ptr n hfuel
    exact ⟨q, e, idleAccesses_of_log s.log⟩

/-- C4 on calls that start while a Start condition is still in flight. -/
theorem byte_accesses_idle_witness :
    (setSEN p0).busy = true ∧
    ((∃ p', I2C_Master_Write 6 0x33 (setSEN p0) = some p' ∧
        IdleAccesses (setSEN p0) p') ∧
    (∃ v p', I2C_Master_Read 6 1 (setSEN p0) = some (v, p') ∧
        IdleAccesses (setSEN p0) p') ∧
    (∃ p', I2C_Master_CallSlave 6 0x50 READ (setSEN p0) = some p' ∧
        IdleAccesses (setSEN p0) p') ∧
    (∃ p', I2C_Master_CallSlavePlus 6 0x50 READ (setSEN p0) = some p' ∧
        IdleAccesses (setSEN p0) p') ∧
    (∃ p', I2C_Master_WritePlus 6 0x33 (setSEN p0) = some p' ∧
        IdleAccesses (setSEN p0) p') ∧
    (∃ q, I2C_Master_WriteComplete 6 0x50 16 2 (setSEN p0) = .returned q ∧
        IdleAccesses (setSEN p0) q) ∧
    (∃ v p', I2C_Master_ReadPlus 6 1 (setSEN p0) = some (v, p') ∧
        IdleAccesses (setSEN p0) p') ∧
    (∃ q, I2C_Master_ReadComplete 6 0x50 16 2 (setSEN p0) = .fault q ∧
        IdleAccesses (setSEN p0) q)) :=
  ⟨by decide, byte_accesses_idle 6 0x33 1 0x50 READ 16 2 (setSEN p0) (by decide)⟩

/-- C5: what the code does. For every address, buffer and length, also when
the device is ready to supply the bytes, `I2C_Master_ReadComplete` does not
return: its register-select frame `I2C_Master_WriteComplete(address, 0, 1)`
reads the select byte through the null pointer. The call stops there after
Start and Write(address + WRITE): no select byte has been sent, no byte has
been received and the buffer holds what it held on entry. -/
theorem ReadComplete_stops_before_burst (fuel address byte n : Nat) (p : Periph)
    (hfuel : Ready fuel p) (haddr : address < 256) :
    ∃ q, I2C_Master_ReadComplete fuel address byte n p = .fault q ∧
      q.log = p.log ++ idle [.Start, .Write (address + WRITE)] ∧
      q.mem = p.mem ∧ q.rx = p.rx := by
  obtain ⟨q, -, e, s⟩ := ReadComplete_fault address byte n hfuel
  refine ⟨q, e, ?_, s.mem, s.rx⟩
  rw [s.log, Nat.mod_eq_of_lt (by simp only [WRITE]; omega)]

/-- C5 at the failing input: a two-byte read into the buffer at address 16,
the device ready to supply 7, 9, 11. -/
theorem ReadComplete_stops_before_burst_witness :
    ∃ q, I2C_Master_ReadComplete 6 0x90 16 2 p0 = .fault q ∧
      q.log = idle [.Start, .Write 0x90] ∧ q.mem = p0.mem ∧ q.rx = [7, 9, 11] :=
  ReadComplete_stops_before_burst 6 0x90 16 2 p0 (by decide) (by decide)

/-- C6, refuted as stated: for `clockspeed = 2^30 + 1` the product
`4 * clockspeed` wraps to 4 in the 32-bit `unsigned long`, so `SSPADD` becomes
`(8000000 / 4 - 1) mod 256 = 127`, whereas `8000000 / (4 * clockspeed) - 1`
reduced modulo 256 is 255. -/
theorem Init_divisor_wraps :
    (I2C_Master_Init 1073741825 p0).map (fun q => q.SSPADD) = some 127 ∧
      (((8000000 / (4 * 1073741825) : Nat) : Int) - 1) % 256 = 255 := by
  decide

/-- C6, amended: with the oscillator at 8000000 Hz and `clockspeed >= 1`, when
`8000000 / (4 * clockspeed) - 1` lies in 0..255 `I2C_Master_Init` leaves exactly
that value in `SSPADD`; for every other `clockspeed` below `2^30` (where
`4 * clockspeed` does not wrap) the register holds that value reduced modulo
256. -/
theorem Init_divisor (clockspeed : Nat) (p : Periph) (h1 : 1 ≤ clockspeed)
    (h2 : clockspeed < 2 ^ 32) :
    (0 ≤ ((8000000 / (4 * clockspeed) : Nat) : Int) - 1 →
      ((8000000 / (4 * clockspeed) : Nat) : Int) - 1 ≤ 255 →
      ∃ p', I2C_Master_Init clockspeed p = some p' ∧
        (p'.SSPADD : Int) = ((8000000 / (4 * clockspeed) : Nat) : Int) - 1) ∧
    (clockspeed < 2 ^ 30 →
      ∃ p', I2C_Master_Init clockspeed p = some p' ∧
        (p'.SSPADD : Int) = (((8000000 / (4 * clockspeed) : Nat) : Int) - 1) % 256) := by
  have key : clockspeed < 2 ^ 30 →
      ∃ p', I2C_Master_Init clockspeed p = some p' ∧
        (p'.SSPADD : Int) = (((8000000 / (4 * clockspeed) : Nat) : Int) - 1) % 256 := by
    intro h3
    have hd : (4 * clockspeed) % 2 ^ 32 = 4 * clockspeed :=
      Nat.mod_eq_of_lt (by norm_num at h3 ⊢; omega)
    have hne : ¬ (4 * clockspeed = 0) := by omega
    have hq : 8000000 / (4 * clockspeed) ≤ 8000000 := Nat.div_le_self _ _
    obtain ⟨p', e, hv⟩ : ∃ p', I2C_Master_Init clockspeed p = some p' ∧
        p'.SSPADD = ((8000000 / (4 * clockspeed) + 2 ^ 32 - 1) % 2 ^ 32) % 256 := by
      simp only [I2C_Master_Init, hd, if_neg hne]
      exact ⟨_, rfl, rfl⟩
    refine ⟨p', e, ?_⟩
    rw [hv]
    generalize 8000000 / (4 * clockspeed) = q at hq
    norm_num
    omega
  refine ⟨?_, key⟩
  intro hlo hhi
  have hc : clockspeed < 2 ^ 30 := by
    by_contra hge
    have : 8000000 / (4 * clockspeed) = 0 :=
      Nat.div_eq_of_lt (by norm_num at hge ⊢; omega)
    rw [this] at hlo
    norm_num at hlo
  obtain ⟨p', e, hv⟩ := key hc
  refine ⟨p', e, ?_⟩
  rw [hv]
  exact Int.emod_eq_of_lt hlo (by omega)

/-- C6, the scenario of the specification: `I2C_Master_Init(100000)` programs
the divisor 19. -/
theorem Init_divisor_witness :
    ∃ p', I2C_Master_Init 100000 p0 = some p' ∧ (p'.SSPADD : Int) = 19 :=
  (Init_divisor 100000 p0 (by decide) (by decide)).1 (by decide) (by decide)

/-- C7: for every address in 0..255 and both directions,
`I2C_Master_CallSlave(address, rw)` returns having issued exactly one operation,
the Write of `address + rw` (the shift buffer takes its low byte), and no Start,
Restart or Stop. -/
theorem CallSlave_single_write (fuel address rw : Nat) (p : Periph)
    (hfuel : Ready fuel p) (haddr : address < 256) (hrw : rw = READ ∨ rw = WRITE) :
    ∃ p', I2C_Master_CallSlave fuel address rw p = some p' ∧
      p'.log = p.log ++ idle [.Write (address + rw)] ∧
      p'.SSPBUF = (address + rw) % 256 := by
  have hlt : address + rw < 2 ^ 16 := by
    rcases hrw with rfl | rfl <;> simp only [READ, WRITE] <;> omega
  obtain ⟨p', e, s, hb⟩ := Write_spec ((address + rw) % 2 ^ 16) hfuel
  rw [Nat.mod_eq_of_lt hlt] at s hb
  exact ⟨p', e, s.log, hb⟩

/-- C7 at the largest address with the read bit. -/
theorem CallSlave_single_write_witness :
    ∃ p', I2C_Master_CallSlave 6 255 READ p0 = some p' ∧
      p'.log = idle [.Write 256] ∧ p'.SSPBUF = 0 :=
  CallSlave_single_write 6 255 READ p0 (by decide) (by decide) (Or.inl rfl)

/-- C8: what the code does. From any peripheral state, `I2C_Master_Start`,
`I2C_Master_Restart` and `I2C_Master_Stop` wait first and set `SEN`, `RSEN`,
`PEN` with the busy status clear, whereas `I2C_Master_sendACK` and
`I2C_Master_sendNAK` contain no wait: they set `ACKDT` and `ACKEN` in the state
they are called in, so the acknowledge sequence carries the busy status of the
entry state. -/
theorem condition_bits_and_wait (fuel : Nat) (p : Periph) (hfuel : Ready fuel p) :
    (∃ p', I2C_Master_Start fuel p = some p' ∧ p'.log = p.log ++ [⟨.Start, false⟩] ∧
      p'.SSPCON2.SEN = true) ∧
    (∃ p', I2C_Master_Restart fuel p = some p' ∧
      p'.log = p.log ++ [⟨.Restart, false⟩] ∧ p'.SSPCON2.RSEN = true) ∧
    (∃ p', I2C_Master_Stop fuel p = some p' ∧ p'.log = p.log ++ [⟨.Stop, false⟩] ∧
      p'.SSPCON2.PEN = true) ∧
    ((I2C_Master_sendACK p).log = p.log ++ [⟨.Ack false, p.busy⟩] ∧
      (I2C_Master_sendACK p).SSPCON2.ACKEN = true) ∧
    ((I2C_Master_sendNAK p).log = p.log ++ [⟨.Ack true, p.busy⟩] ∧
      (I2C_Master_sendNAK p).SSPCON2.ACKEN = true) := by
  refine ⟨?_, ?_, ?_, ⟨?_, rfl⟩, ⟨?_, rfl⟩⟩
  · refine ⟨setSEN (settle p), by simp [I2C_Master_Start, Wait_eq fuel p hfuel.1], ?_, rfl⟩
    show (settle p).log ++ [⟨.Start, (settle p).busy⟩] = _
    rw [busy_settle, settle_log]
  · refine ⟨setRSEN (settle p),
      by simp [I2C_Master_Restart, Wait_eq fuel p hfuel.1], ?_, rfl⟩
    show (settle p).log ++ [⟨.Restart, (settle p).busy⟩] = _
    rw [busy_settle, settle_log]
  · refine ⟨setPEN (settle p), by simp [I2C_Master_Stop, Wait_eq fuel p hfuel.1], ?_, rfl⟩
    show (settle p).log ++ [⟨.Stop, (settle p).busy⟩] = _
    rw [busy_settle, settle_log]
  · show (setACKDT false p).log ++ [⟨.Ack false, (setACKDT false p).busy⟩] = _
    rw [busy_setACKDT]; rfl
  · show (setACKDT true p).log ++ [⟨.Ack true, (setACKDT true p).busy⟩] = _
    rw [busy_setACKDT]; rfl

/-- C8 at the failing input, a call while a Start condition is in flight:
`I2C_Master_Stop` waits and sets `PEN` with the busy status clear, but
`I2C_Master_sendACK` and `I2C_Master_sendNAK` set `ACKEN` with the busy status
asserted. -/
theorem condition_bits_and_wait_witness :
    (∃ p', I2C_Master_Start 6 (setSEN p0) = some p' ∧
      p'.log = [⟨.Start, false⟩, ⟨.Start, false⟩] ∧ p'.SSPCON2.SEN = true) ∧
    (∃ p', I2C_Master_Restart 6 (setSEN p0) = some p' ∧
      p'.log = [⟨.Start, false⟩, ⟨.Restart, false⟩] ∧ p'.SSPCON2.RSEN = true) ∧
    (∃ p', I2C_Master_Stop 6 (setSEN p0) = some p' ∧
      p'.log = [⟨.Start, false⟩, ⟨.Stop, false⟩] ∧ p'.SSPCON2.PEN = true) ∧
    ((I2C_Master_sendACK (setSEN p0)).log = [⟨.Start, false⟩, ⟨.Ack false, true⟩] ∧
      (I2C_Master_sendACK (setSEN p0)).SSPCON2.ACKEN = true) ∧
    ((I2C_Master_sendNAK (setSEN p0)).log = [⟨.Start, false⟩, ⟨.Ack true, true⟩] ∧
      (I2C_Master_sendNAK (setSEN p0)).SSPCON2.ACKEN = true) :=
  condition_bits_and_wait 6 (setSEN p0) (by decide)

/-- C9, refuted as stated: `I2C_Master_CallSlavePlus` issues Start and the
address Write and nothing else; its last operation is the Write, not a Stop. -/
theorem CallSlavePlus_no_Stop :
    (I2C_Master_CallSlavePlus 6 0x50 WRITE p0).map (fun q => q.log.map Event.op) =
        some [.Start, .Write 0x50] ∧
      (I2C_Master_CallSlavePlus 6 0x50 WRITE p0).map
          (fun q => (q.log.map Event.op).getLast?) ≠ some (some .Stop) := by
  decide

/-- C9, amended: for every input, `I2C_Master_WritePlus` and
`I2C_Master_ReadPlus` return with a Stop as the last operation issued, and so
does `I2C_Master_WriteComplete` for every payload that can be read, while
`I2C_Master_CallSlavePlus` issues exactly Start and the address Write, leaving
the Stop to the caller. -/
theorem helpers_end_with_Stop (fuel content a address rw ptr n : Nat) (p : Periph)
    (hfuel : Ready fuel p) :
    (∃ p' ops, I2C_Master_WritePlus fuel content p = some p' ∧
      p'.log = p.log ++ idle (ops ++ [.Stop])) ∧
    ((bytesAt p.mem ptr n).isSome = true →
      ∃ p' ops, I2C_Master_WriteComplete fuel address ptr n p = .returned p' ∧
        p'.log = p.log ++ idle (ops ++ [.Stop])) ∧
    (∃ v p' ops, I2C_Master_ReadPlus fuel a p = some (v, p') ∧
      p'.log = p.log ++ idle (ops ++ [.Stop])) ∧
    (∃ p', I2C_Master_CallSlavePlus fuel address rw p = some p' ∧
      p'.log = p.log ++ idle [.Start, .Write ((address + rw) % 2 ^ 16)]) := by
  refine ⟨?_, ?_, ?_, ?_⟩
  · obtain ⟨p', e, s⟩ := WritePlus_spec content hfuel
    exact ⟨p', [.Write content], e, s.log⟩
  · intro hpayload
    obtain ⟨payload, hm⟩ := Option.isSome_iff_exists.1 hpayload
    obtain ⟨p', e, s⟩ := WriteComplete_spec address ptr n payload hfuel hm
    exact ⟨p', _, e, s.log⟩
  · obtain ⟨v, p', e, -, l⟩ := ReadPlus_spec a hfuel
    exact ⟨v, p', [.RecvEnable, .Capture v, .Ack (decide (a = 0))], e, l⟩
  · obtain ⟨p', e, s⟩ := CallSlavePlus_spec address rw hfuel
    exact ⟨p', e, s.log⟩

/-- C9, amended, on concrete calls. -/
theorem helpers_end_with_Stop_witness :
    (∃ p' ops, I2C_Master_WritePlus 6 0x33 p0 = some p' ∧
      p'.log = p0.log ++ idle (ops ++ [.Stop])) ∧
    (∃ p' ops, I2C_Master_WriteComplete 6 0x50 16 2 p0 = .returned p' ∧
      p'.log = p0.log ++ idle (ops ++ [.Stop])) ∧
    (∃ v p' ops, I2C_Master_ReadPlus 6 1 p0 = some (v, p') ∧
      p'.log = p0.log ++ idle (ops ++ [.Stop])) ∧
    (∃ p', I2C_Master_CallSlavePlus 6 0x50 READ p0 = some p' ∧
      p'.log = p0.log ++ idle [.Start, .Write 0x51]) :=
  have h := helpers_end_with_Stop 6 0x33 1 0x50 READ 16 2 p0 (by decide)
  ⟨h.1, h.2.1 (by decide), h.2.2.1, h.2.2.2⟩

/-- C10: what the code does. The write-mode data byte of
`I2C_Master_ReadComplete` is not read from `buffer[0]`: the register-select
frame is the call `I2C_Master_WriteComplete(address, 0, 1)`, whose payload
pointer is the literal 0 whatever the buffer is, so the byte is read through
the null pointer, an undefined access outside the caller's buffer. The select
frame stops at that read after Start and Write(address + WRITE), and the
outcome of `I2C_Master_ReadComplete` is the outcome of that frame, whatever the
buffer and its contents. -/
theorem ReadComplete_select_through_null (fuel address byte n : Nat) (p : Periph)
    (hfuel : Ready fuel p) (haddr : address < 256) :
    load p.mem 0 = none ∧
    I2C_Master_ReadComplete fuel address byte n p =
      I2C_Master_WriteComplete fuel address 0 1 p ∧
    ∃ q, I2C_Master_WriteComplete fuel address 0 1 p = .fault q ∧
      q.log = p.log ++ idle [.Start, .Write (address + WRITE)] := by
  obtain ⟨q, ew, er, s⟩ := ReadComplete_fault address byte n hfuel
  refine ⟨rfl, by rw [ew, er], q, ew, ?_⟩
  rw [s.log, Nat.mod_eq_of_lt (by simp only [WRITE]; omega)]

/-- C10 at the failing input: the buffer at address 16 holds 1, 2 on entry,
and the select byte is read through the null pointer, not from `buffer[0]`. -/
theorem ReadComplete_select_through_null_witness :
    load p0.mem 16 = some 1 ∧
    (load p0.mem 0 = none ∧
    I2C_Master_ReadComplete 6 0x90 16 2 p0 = I2C_Master_WriteComplete 6 0x90 0 1 p0 ∧
    ∃ q, I2C_Master_WriteComplete 6 0x90 0 1 p0 = .fault q ∧
      q.log = idle [.Start, .Write 0x90]) :=
  ⟨by decide, ReadComplete_select_through_null 6 0x90 16 2 p0 (by decide) (by decide)⟩

end I2C
